import Mathlib

/-!
Verification of the asset-revisioning and reference-rewriting pipeline of the
GulpBoilerplate repository (`src/gulpfile.js`).

The gulpfile wires opaque transformations (Sass compilation, bundling,
minification, image optimisation) around the revisioning core:

* `IS_DEV` / `IS_PROD` (lines 266-267): build mode from `process.argv`.
* `bundleSASS` (lines 325-347), `bundleJS` (lines 370-401), `images`
  (lines 449-463): production stages rename the output with a content hash
  (`gulp-rev`, documented in the source as `unicorn.css → unicorn-d41d8cd98f.css`)
  and accumulate a `rev-manifest.json` mapping (merge mode).
* `copy-rev-manifest` / `delete-rev-manifest` / `move-rev-manifest`
  (lines 473-484): relocate the accumulated manifest from the project root
  into the destination tree.
* `rev-rewrite` (lines 486-492): rewrites occurrences of manifest keys in the
  destination tree (`gulp-rev-rewrite`).
* `build` (lines 521-526) and `html` (lines 305-308): stage ordering through
  `runSequence`.

Pure functions below mirror the string manipulation of the source; the stage
pipelines are modelled as functions from the stage inputs (plus an abstract
content-hash function standing for gulp-rev's md5 digest) to the set of paths
written, the manifest entries recorded, and the manifest file persisted.
-/

namespace GulpBoilerplate

/-- JavaScript `String.prototype.split(sep)` on a list of characters, as used by
`output.split('/')` in `bundleSASS` / `bundleJS`: `"a"` gives `["a"]`, the empty
string gives `[""]`, a leading separator yields a leading empty segment. -/
def splitOnChar (sep : Char) : List Char → List (List Char)
  | [] => [[]]
  | c :: rest =>
    let r := splitOnChar sep rest
    if c = sep then [] :: r
    else
      match r with
      | [] => [[c]]
      | x :: xs => (c :: x) :: xs

/-- `split` lifted to `String`. -/
def splitSeg (sep : Char) (s : String) : List String :=
  (splitOnChar sep s.toList).map String.mk

/-- JavaScript `Array.prototype.join(sep)`. -/
def joinWith (sep : String) : List String → String
  | [] => ""
  | [x] => x
  | x :: xs => x ++ sep ++ joinWith sep xs

/-- `splitPath[splitPath.length - 1]` of `output.split('/')`: the file portion
of an output path. -/
def lastSeg (p : String) : String := (splitSeg '/' p).getLastD ""

/-- `splitPath.slice(0, -1).join('/')`: the directory portion of an output path. -/
def dirOf (p : String) : String := joinWith "/" ((splitSeg '/' p).dropLast)

/-- `gulp.dest(dir)` path of a file named `f`. -/
def joinSeg (d f : String) : String := d ++ "/" ++ f

/-- `const destDir = 'dist'` (line 263). -/
def destDir : String := "dist"

/-- `const sourceDir = 'src'` (line 262). -/
def sourceDir : String := "src"

/-- `const IS_DEV = process.argv.includes('--development')` (line 266). -/
def IS_DEV (argv : List String) : Bool := argv.contains "--development"

/-- `const IS_PROD = !IS_DEV` (line 267). -/
def IS_PROD (argv : List String) : Bool := !(IS_DEV argv)

/-- `gulp-rev` filename revisioning (source comment, line 257:
`unicorn.css → unicorn-d41d8cd98f.css`): the digest is inserted between the
stem and the extension, splitting at the last dot. -/
def revFileName (h name : String) : String :=
  match splitSeg '.' name with
  | [] => name ++ "-" ++ h
  | [stem] => stem ++ "-" ++ h
  | parts => joinWith "." parts.dropLast ++ "-" ++ h ++ "." ++ parts.getLastD ""

/-- `gulp-sass` replaces the source extension with `.css` (in development
mode no `rename(outputFile)` runs, so the compiled name comes from the entry
file: `main.scss → main.css`). -/
def toCssName (name : String) : String :=
  match splitSeg '.' name with
  | [] => name
  | [stem] => stem ++ ".css"
  | parts => joinWith "." parts.dropLast ++ ".css"

/-- What a single asset stage of the gulpfile produces:
`files` are the destination-tree paths written (in pipe order),
`entries` the original → revisioned pairs recorded in the rev manifest, and
`manifestFile` the path at which the stage persists the accumulated manifest
(`none` in development mode). -/
structure StageOut where
  files : List String
  entries : List (String × String)
  manifestFile : Option String
  deriving DecidableEq, Repr

/-- Where `rev.manifest({ base: destDir, merge: true })` followed by
`gulp.dest(destDir)` lands the manifest file. `gulp-rev` creates the manifest
vinyl at `rev-manifest.json` relative to the process working directory with
`base` set to `destDir`, so `gulp.dest(destDir)` resolves it right back to the
project root. The gulpfile's own `copy-rev-manifest` task (line 474) reads
`rev-manifest.json` from the project root, confirming this location. -/
def revManifestPath : String := "rev-manifest.json"

/-- `bundleSASS` (lines 325-347). In production the stream is
`sass → postcss → rename(outputFile) → rev() → sourcemaps.write('.') →
gulp.dest(outputDir) → rev.manifest(merge) → gulp.dest(destDir)`: the file is
written only under its revisioned name (plus its sourcemap), the manifest
records `outputFile → revisioned` (paths relative to the stage's base, i.e.
bare filenames), and the accumulated manifest is persisted. In development all
`IF(IS_PROD, ...)` steps are skipped and the compiled file keeps its
`gulp-sass` name. `css` is the fully transformed stylesheet content entering
`rev()`; `hash` abstracts gulp-rev's content digest. -/
def bundleSASS_model (isProd : Bool) (hash : String → String)
    (entry output : String) (css : String) : StageOut :=
  let outputFile := lastSeg output
  let outputDir := dirOf output
  if isProd then
    let revved := revFileName (hash css) outputFile
    ⟨[joinSeg outputDir revved, joinSeg outputDir (revved ++ ".map")],
     [(outputFile, revved)],
     some revManifestPath⟩
  else
    ⟨[joinSeg outputDir (toCssName (lastSeg entry))], [], none⟩

/-- `bundleJS` (lines 370-401): `source(outputFile) → uglify → rev() →
sourcemaps.write('.') → gulp.dest(outputDir) → rev.manifest(merge) →
gulp.dest(destDir)` in production; plain `gulp.dest(outputDir)` of
`outputFile` in development. `bundled` is the bundled script content. -/
def bundleJS_model (isProd : Bool) (hash : String → String)
    (output : String) (bundled : String) : StageOut :=
  let outputFile := lastSeg output
  let outputDir := dirOf output
  if isProd then
    let revved := revFileName (hash bundled) outputFile
    ⟨[joinSeg outputDir revved, joinSeg outputDir (revved ++ ".map")],
     [(outputFile, revved)],
     some revManifestPath⟩
  else
    ⟨[output], [], none⟩

/-- `gulp.dest` directory of the images task: `${destDir}/images` (line 457). -/
def imagesDest : String := destDir ++ "/images"

/-- `gulp-rev` on a path relative to the images base: the hash is inserted in
the basename, directories are preserved, and the manifest key keeps the
original relative path. -/
def revRelName (hash : String → String) (rel content : String) : String :=
  let segs := splitSeg '/' rel
  joinWith "/" (segs.dropLast ++ [revFileName (hash content) (segs.getLastD "")])

/-- `images` task (lines 449-463): `imagemin → rev() → gulp.dest(dist/images)
→ rev.manifest(merge) → gulp.dest(destDir)` in production, plain copy in
development. `imgs` pairs each source-relative path under `src/images` with
its (optimised) content. gulp-rev writes no manifest when it revisioned
nothing. -/
def images_model (isProd : Bool) (hash : String → String)
    (imgs : List (String × String)) : StageOut :=
  if isProd then
    ⟨imgs.map (fun g => joinSeg imagesDest (revRelName hash g.1 g.2)),
     imgs.map (fun g => (g.1, revRelName hash g.1 g.2)),
     if imgs.isEmpty then none else some revManifestPath⟩
  else
    ⟨imgs.map (fun g => joinSeg imagesDest g.1), [], none⟩

/-- Every path a stage touches, in pipe order: asset files first
(`gulp.dest(outputDir)`), then the persisted manifest
(`rev.manifest → gulp.dest(destDir)` is the last pipe of each stage). -/
def StageOut.writeSeq (s : StageOut) : List String :=
  s.files ++ s.manifestFile.toList

/-- `move-rev-manifest` (lines 473-484) expanded: `runSequence('copy-rev-manifest',
'delete-rev-manifest')` runs as a dependency of `rev-rewrite` (line 486), so the
`rev-rewrite` task body runs after both. -/
def revRewritePhases : List (List String) :=
  [["copy-rev-manifest"], ["delete-rev-manifest"], ["rev-rewrite"]]

/-- `html` task (lines 305-308): in production
`runSequence('html-copy', 'rev-rewrite', 'critical', 'html-minify')`, in
development `runSequence('html-copy')`. Each inner list is a set of tasks
running in parallel; lists execute in order. -/
def htmlPhases (isProd : Bool) : List (List String) :=
  if isProd then [["html-copy"]] ++ revRewritePhases ++ [["critical"], ["html-minify"]]
  else [["html-copy"]]

/-- `build` task (lines 521-526):
`runSequence('del', ['sass', 'js', 'json', 'images'], 'html', 'sizereport')`.
The bracketed tasks run in parallel and all complete before the next phase;
`js` triggers its dependencies `main` and `sw` (line 420). -/
def buildPhases (isProd : Bool) : List (List String) :=
  [["del"], ["sass", "main", "sw", "js", "json", "images"]] ++ htmlPhases isProd
    ++ [["sizereport"]]

/-- Index of the phase in which a task runs. -/
def phaseIdx (phases : List (List String)) (t : String) : Option Nat :=
  phases.findIdx? (fun p => p.contains t)

/-- `a` completes strictly before `b` starts: `a`'s phase precedes `b`'s. -/
def stageBefore (phases : List (List String)) (a b : String) : Bool :=
  match phaseIdx phases a, phaseIdx phases b with
  | some i, some j => decide (i < j)
  | _, _ => false

/-- `rev-rewrite` reads the relocated manifest first (line 487). -/
def revRewriteManifestSrc : String := destDir ++ "/rev-manifest.json"

/-- Inputs of the `rev-rewrite` task, in source order (lines 487-489): the
manifest, then the whole destination tree. -/
def revRewriteReads : List String := [revRewriteManifestSrc, destDir ++ "/**/*"]

/-- `copy-rev-manifest` (lines 473-476) reads the manifest at the project root. -/
def copyRevManifestSrc : String := "rev-manifest.json"

/-- ... and writes it under the destination root. -/
def copyRevManifestWrites : List String := [joinSeg destDir "rev-manifest.json"]

/-- `delete-rev-manifest` (lines 478-480) deletes the project-root copy. -/
def deleteRevManifestTarget : String := "rev-manifest.json"

/-! ### Manifest store

Modelled from the spec: the manifest (section 3 / 4.2) is a flat JSON object,
here an association list in insertion order; `gulp-rev`'s `merge: true`
combines a stage's entries into the previously persisted object with
`Object.assign` semantics, so a later entry for the same key overwrites the
earlier one. -/

/-- JavaScript object lookup with overwrite semantics: the value of the last
entry carrying the key. -/
def mget : List (String × String) → String → Option String
  | [], _ => none
  | kv :: rest, k =>
    match mget rest k with
    | some v => some v
    | none => if kv.1 = k then some kv.2 else none

/-- First-defined choice on optional values (used to state `mget` facts). -/
def oget : Option String → Option String → Option String
  | some v, _ => some v
  | none, y => y

/-- Modelled from the spec: `merge(other)` (section 4.2) unions the entries of
two manifests, entries of the second overwriting the first on a key collision
(`Object.assign(oldManifest, manifest)` inside `gulp-rev`'s merge mode). -/
def mergeManifest (a b : List (String × String)) : List (String × String) :=
  a ++ b

/-- No key of `a` is a key of `b`. -/
def keysDisjoint (a b : List (String × String)) : Bool :=
  a.all (fun kv => (mget b kv.1).isNone)

/-! ### Reference rewriter

Modelled from the spec: the Reference Rewriter (section 4.4, implemented by
the external `gulp-rev-rewrite` package) scans each text file and replaces
every literal substring occurrence of a manifest key with its revisioned
value, key by key. -/

/-- `k` is a leading segment of `s`. -/
def leadsWith : List Char → List Char → Bool
  | [], _ => true
  | _ :: _, [] => false
  | a :: as, b :: bs => a = b && leadsWith as bs

/-- `k` occurs as a contiguous substring of `s`. -/
def occursIn (k : List Char) (s : List Char) : Bool :=
  match s with
  | [] => leadsWith k []
  | c :: rest => leadsWith k (c :: rest) || occursIn k rest

/-- Replace every (left-to-right, non-overlapping) occurrence of `k` by `v`,
fuelled for structural termination; `fuel ≥ s.length` suffices. -/
def rwAllFuel : Nat → List Char → List Char → List Char → List Char
  | 0, _, _, s => s
  | _ + 1, _, _, [] => []
  | fuel + 1, k, v, c :: rest =>
    if !k.isEmpty && leadsWith k (c :: rest) then
      v ++ rwAllFuel fuel k v (List.drop k.length (c :: rest))
    else
      c :: rwAllFuel fuel k v rest

/-- Replace every occurrence of `k` by `v` in `s`. -/
def rwAll (k v s : List Char) : List Char := rwAllFuel s.length k v s

/-- Rewrite a text against a manifest: each entry's key is replaced by its
value, entries applied in manifest order. -/
def rewriteText (m : List (String × String)) (t : String) : String :=
  String.mk (m.foldl (fun acc kv => rwAll kv.1.toList kv.2.toList acc) t.toList)

/-! ### Error handling of the transformation stages

`bundleSASS` pipes through `plumber()` and attaches `sass.logError` (lines
330-333); `bundleJS` attaches `.on('error', function (error) {
console.error(error); this.emit('end'); })` (lines 384-388). In both cases a
transformation error is logged and the stream ends without a file, but the
task still signals completion, so `runSequence` proceeds. -/

/-- Observable outcome of running one stage: what it logged, what it wrote,
and whether it signalled completion to the orchestrator. -/
structure RunOutcome where
  logs : List String
  files : List String
  completed : Bool
  deriving DecidableEq, Repr

/-- Run `bundleSASS` on the compiler's result: an error is logged
(`sass.logError`) and nothing is emitted (`plumber` keeps the chain alive);
a successful compile feeds the normal pipeline. -/
def bundleSASS_run (isProd : Bool) (hash : String → String)
    (entry output : String) (compiled : Except String String) : RunOutcome :=
  match compiled with
  | Except.error e => ⟨[e], [], true⟩
  | Except.ok css => ⟨[], (bundleSASS_model isProd hash entry output css).files, true⟩

/-- Run `bundleJS` on the bundler's result: an error is logged
(`console.error`) and the stream is ended (`this.emit('end')`) with no file. -/
def bundleJS_run (isProd : Bool) (hash : String → String)
    (output : String) (bundled : Except String String) : RunOutcome :=
  match bundled with
  | Except.error e => ⟨[e], [], true⟩
  | Except.ok js => ⟨[], (bundleJS_model isProd hash output js).files, true⟩

/-- `runSequence` semantics: a phase starts only after every task of the
previous phase has signalled completion; a phase whose task never completes
stops the chain there. -/
def execPhases (completes : String → Bool) : List (List String) → List String
  | [] => []
  | p :: rest => if p.all completes then p ++ execPhases completes rest else p

/-! ### String infrastructure lemmas -/

theorem str_data_append (s t : String) : (s ++ t).data = s.data ++ t.data := rfl

theorem str_len_append (s t : String) : (s ++ t).length = s.length + t.length := by
  cases s with
  | mk a =>
    cases t with
    | mk b =>
      show (a ++ b).length = a.length + b.length
      exact List.length_append a b

theorem str_ext (s t : String) (e : s.data = t.data) : s = t := by
  cases s with
  | mk a =>
    cases t with
    | mk b =>
      rw [show (String.mk a).data = a from rfl, show (String.mk b).data = b from rfl] at e
      rw [e]

theorem joinSeg_inj_right (d a b : String) (e : joinSeg d a = joinSeg d b) : a = b := by
  have h := congrArg String.data e
  rw [show joinSeg d a = (d ++ "/") ++ a from rfl,
      show joinSeg d b = (d ++ "/") ++ b from rfl] at h
  rw [str_data_append, str_data_append] at h
  exact str_ext a b (List.append_cancel_left h)

theorem revLen_main_css (hx : String) :
    (revFileName hx "main.css").length = hx.length + 9 := by
  show ((("main-" ++ hx) ++ ".") ++ "css").length = hx.length + 9
  rw [str_len_append, str_len_append, str_len_append]
  simp only [show ("main-" : String).length = 5 from rfl,
    show ("." : String).length = 1 from rfl,
    show ("css" : String).length = 3 from rfl]
  omega

theorem revLen_main_js (hx : String) :
    (revFileName hx "main.js").length = hx.length + 8 := by
  show ((("main-" ++ hx) ++ ".") ++ "js").length = hx.length + 8
  rw [str_len_append, str_len_append, str_len_append]
  simp only [show ("main-" : String).length = 5 from rfl,
    show ("." : String).length = 1 from rfl,
    show ("js" : String).length = 2 from rfl]
  omega

/-! ### Rewriter lemmas -/

theorem rwAllFuel_no_occurs (fuel : Nat) :
    ∀ (k v s : List Char), occursIn k s = false → s.length ≤ fuel →
      rwAllFuel fuel k v s = s := by
  induction fuel with
  | zero =>
    intro k v s _ hl
    have : s = [] := List.eq_nil_of_length_eq_zero (Nat.le_zero.mp hl)
    rw [this]
    rfl
  | succ n ih =>
    intro k v s h hl
    cases s with
    | nil => rfl
    | cons c rest =>
      have h2 : leadsWith k (c :: rest) = false ∧ occursIn k rest = false := by
        have : (leadsWith k (c :: rest) || occursIn k rest) = false := h
        exact Bool.or_eq_false_iff.mp this
      show (if !k.isEmpty && leadsWith k (c :: rest) then _ else _) = _
      rw [h2.1, Bool.and_false, if_neg (by simp)]
      rw [ih k v rest h2.2 (by
        have : rest.length + 1 ≤ n + 1 := hl
        omega)]

theorem rwAll_no_occurs (k v s : List Char) (h : occursIn k s = false) :
    rwAll k v s = s :=
  rwAllFuel_no_occurs s.length k v s h (Nat.le_refl _)

theorem rewriteChars_fix (m : List (String × String)) (s : List Char)
    (h : ∀ kv ∈ m, occursIn kv.1.toList s = false) :
    m.foldl (fun acc kv => rwAll kv.1.toList kv.2.toList acc) s = s := by
  induction m with
  | nil => rfl
  | cons kv rest ih =>
    rw [List.foldl_cons, rwAll_no_occurs _ _ _ (h kv (List.mem_cons_self kv rest))]
    exact ih (fun p hp => h p (List.mem_cons_of_mem kv hp))

/-- A text in which no manifest key occurs passes through the rewriter
unchanged. -/
theorem rewriteText_fix (m : List (String × String)) (t : String)
    (h : ∀ kv ∈ m, occursIn kv.1.toList t.toList = false) :
    rewriteText m t = t := by
  unfold rewriteText
  rw [rewriteChars_fix m t.toList h]
  rfl

/-! ### Manifest lemmas -/

theorem oget_none_right (x : Option String) : oget x none = x := by
  cases x <;> rfl

theorem oget_assoc (x y z : Option String) :
    oget (oget x y) z = oget x (oget y z) := by
  cases x <;> rfl

theorem mget_cons (kv : String × String) (rest : List (String × String)) (k : String) :
    mget (kv :: rest) k = oget (mget rest k) (if kv.1 = k then some kv.2 else none) := by
  show _ = oget (mget rest k) _
  cases h : mget rest k with
  | none => rw [mget, h]; rfl
  | some v => rw [mget, h]; rfl

theorem mget_append (a b : List (String × String)) (k : String) :
    mget (a ++ b) k = oget (mget b k) (mget a k) := by
  induction a with
  | nil =>
    rw [List.nil_append, show mget [] k = (none : Option String) from rfl, oget_none_right]
  | cons kv rest ih =>
    rw [List.cons_append, mget_cons, ih, mget_cons, oget_assoc]

theorem mget_isSome_mem (a : List (String × String)) (k : String)
    (h : (mget a k).isSome = true) : ∃ p ∈ a, p.1 = k := by
  induction a with
  | nil => simp [mget] at h
  | cons kv rest ih =>
    rw [mget_cons] at h
    cases hr : mget rest k with
    | some v =>
      obtain ⟨p, hp, hk⟩ := ih (by rw [hr]; rfl)
      exact ⟨p, List.mem_cons_of_mem kv hp, hk⟩
    | none =>
      rw [hr] at h
      by_cases he : kv.1 = k
      · exact ⟨kv, List.mem_cons_self kv rest, he⟩
      · rw [show oget none (if kv.1 = k then some kv.2 else none) =
            (if kv.1 = k then some kv.2 else none) from rfl, if_neg he] at h
        simp at h

theorem keysDisjoint_spec (a b : List (String × String))
    (hd : keysDisjoint a b = true) (k : String) :
    mget a k = none ∨ mget b k = none := by
  cases h : mget a k with
  | none => exact Or.inl rfl
  | some v =>
    obtain ⟨p, hp, hk⟩ := mget_isSome_mem a k (by rw [h]; rfl)
    have hall := List.all_eq_true.mp hd p hp
    rw [hk] at hall
    exact Or.inr (Option.isNone_iff_eq_none.mp hall)

theorem revLen_sw_js (hx : String) :
    (revFileName hx "sw.js").length = hx.length + 6 := by
  show ((("sw-" ++ hx) ++ ".") ++ "js").length = hx.length + 6
  rw [str_len_append, str_len_append, str_len_append]
  simp only [show ("sw-" : String).length = 3 from rfl,
    show ("." : String).length = 1 from rfl,
    show ("js" : String).length = 2 from rfl]
  omega

theorem ne_main_css_rev (hx : String) :
    ("main.css" : String) ≠ revFileName hx "main.css" := by
  intro e
  have el := congrArg String.length e
  rw [revLen_main_css, show ("main.css" : String).length = 8 from rfl] at el
  omega

theorem ne_main_css_rev_map (hx : String) :
    ("main.css" : String) ≠ revFileName hx "main.css" ++ ".map" := by
  intro e
  have el := congrArg String.length e
  rw [str_len_append, revLen_main_css, show ("main.css" : String).length = 8 from rfl,
    show (".map" : String).length = 4 from rfl] at el
  omega

theorem ne_main_js_rev (hx : String) :
    ("main.js" : String) ≠ revFileName hx "main.js" := by
  intro e
  have el := congrArg String.length e
  rw [revLen_main_js, show ("main.js" : String).length = 7 from rfl] at el
  omega

theorem ne_main_js_rev_map (hx : String) :
    ("main.js" : String) ≠ revFileName hx "main.js" ++ ".map" := by
  intro e
  have el := congrArg String.length e
  rw [str_len_append, revLen_main_js, show ("main.js" : String).length = 7 from rfl,
    show (".map" : String).length = 4 from rfl] at el
  omega

theorem ne_sw_js_rev (hx : String) :
    ("sw.js" : String) ≠ revFileName hx "sw.js" := by
  intro e
  have el := congrArg String.length e
  rw [revLen_sw_js, show ("sw.js" : String).length = 5 from rfl] at el
  omega

theorem ne_sw_js_rev_map (hx : String) :
    ("sw.js" : String) ≠ revFileName hx "sw.js" ++ ".map" := by
  intro e
  have el := congrArg String.length e
  rw [str_len_append, revLen_sw_js, show ("sw.js" : String).length = 5 from rfl,
    show (".map" : String).length = 4 from rfl] at el
  omega

theorem not_mem_rev_pair (d orig rev : String)
    (h1 : orig ≠ rev) (h2 : orig ≠ rev ++ ".map") :
    joinSeg d orig ∉ [joinSeg d rev, joinSeg d (rev ++ ".map")] := by
  intro hm
  rcases List.mem_cons.mp hm with h | h
  · exact h1 (joinSeg_inj_right d orig rev h)
  · rcases List.mem_cons.mp h with hb | hb
    · exact h2 (joinSeg_inj_right d orig (rev ++ ".map") hb)
    · exact (List.not_mem_nil _) hb

/-! ### Claims -/

/-- C10: the build runs in production mode exactly when the literal string
`--development` is absent from the process arguments; `IS_PROD` is by
definition the exact negation of `IS_DEV`, both are pure in `argv` (computed
once, never mutated), and any other spelling — such as `--dev` — still runs
as production. -/
theorem build_mode_flag (argv : List String) :
    IS_PROD argv = !(IS_DEV argv)
    ∧ (IS_PROD argv = true ↔ "--development" ∉ argv)
    ∧ IS_PROD ["gulp", "build", "--dev"] = true
    ∧ IS_DEV ["gulp", "build", "--development"] = true := by
  refine ⟨rfl, ?_, rfl, rfl⟩
  rw [IS_PROD, IS_DEV, Bool.not_eq_true']
  rw [show argv.contains "--development" = List.elem "--development" argv from rfl]
  rw [Bool.eq_false_iff]
  exact not_congr List.elem_iff

/-- C4: in the production build schedule the reference-rewrite task runs
strictly after the clean step and every asset-producing stage (sass, the
script bundles `main`/`sw`/`js`, json, images), strictly after the html copy,
and strictly before critical-CSS inlining, HTML minification, and the size
report; the full order is clean, the parallel asset stages, html-copy, the
manifest move (copy then delete), rev-rewrite, critical, html-minify,
sizereport. -/
theorem prod_build_stage_order :
    buildPhases true
      = [["del"], ["sass", "main", "sw", "js", "json", "images"], ["html-copy"],
         ["copy-rev-manifest"], ["delete-rev-manifest"], ["rev-rewrite"],
         ["critical"], ["html-minify"], ["sizereport"]]
    ∧ stageBefore (buildPhases true) "del" "sass" = true
    ∧ stageBefore (buildPhases true) "sass" "rev-rewrite" = true
    ∧ stageBefore (buildPhases true) "main" "rev-rewrite" = true
    ∧ stageBefore (buildPhases true) "sw" "rev-rewrite" = true
    ∧ stageBefore (buildPhases true) "js" "rev-rewrite" = true
    ∧ stageBefore (buildPhases true) "json" "rev-rewrite" = true
    ∧ stageBefore (buildPhases true) "images" "rev-rewrite" = true
    ∧ stageBefore (buildPhases true) "sass" "html-copy" = true
    ∧ stageBefore (buildPhases true) "js" "html-copy" = true
    ∧ stageBefore (buildPhases true) "json" "html-copy" = true
    ∧ stageBefore (buildPhases true) "images" "html-copy" = true
    ∧ stageBefore (buildPhases true) "html-copy" "rev-rewrite" = true
    ∧ stageBefore (buildPhases true) "rev-rewrite" "critical" = true
    ∧ stageBefore (buildPhases true) "critical" "html-minify" = true
    ∧ stageBefore (buildPhases true) "html-minify" "sizereport" = true := by
  decide

/-- C6: a development build revisions nothing — the Sass entry is written
verbatim as `dist/css/main.css`, the bundles as `dist/js/main.js` and
`dist/sw.js`, images keep their names, no stage records a manifest entry or
persists a manifest file, and neither the rewrite step nor the manifest move
appears in the development schedule. -/
theorem dev_build_unrevisioned (hash : String → String) (X bMain bSw : String)
    (imgs : List (String × String)) :
    bundleSASS_model false hash "src/sass/main.scss" "dist/css/main.css" X
      = ⟨["dist/css/main.css"], [], none⟩
    ∧ bundleJS_model false hash "dist/js/main.js" bMain = ⟨["dist/js/main.js"], [], none⟩
    ∧ bundleJS_model false hash "dist/sw.js" bSw = ⟨["dist/sw.js"], [], none⟩
    ∧ images_model false hash imgs
        = ⟨imgs.map (fun g => joinSeg imagesDest g.1), [], none⟩
    ∧ buildPhases false
        = [["del"], ["sass", "main", "sw", "js", "json", "images"], ["html-copy"],
           ["sizereport"]]
    ∧ "rev-rewrite" ∉ (buildPhases false).flatten
    ∧ "copy-rev-manifest" ∉ (buildPhases false).flatten := by
  refine ⟨rfl, rfl, rfl, rfl, rfl, ?_, ?_⟩ <;> decide

/-- C9: a failed Sass compile or a failed bundle is logged (the error message
is the stage's log), produces no file, yet the stage still signals completion,
so `runSequence` executes every remaining phase of the production build. -/
theorem transformation_errors_logged_not_fatal (eA eB : String)
    (hash : String → String) :
    bundleSASS_run true hash "src/sass/main.scss" "dist/css/main.css" (Except.error eA)
      = ⟨[eA], [], true⟩
    ∧ bundleJS_run true hash "dist/js/main.js" (Except.error eB) = ⟨[eB], [], true⟩
    ∧ execPhases (fun t =>
        if t = "sass" then
          (bundleSASS_run true hash "src/sass/main.scss" "dist/css/main.css"
            (Except.error eA)).completed
        else if t = "main" then
          (bundleJS_run true hash "dist/js/main.js" (Except.error eB)).completed
        else true) (buildPhases true) = (buildPhases true).flatten :=
  ⟨rfl, rfl, rfl⟩

/-- C7: manifest merge is the last-write-wins union — a lookup in `merge a b`
returns `b`'s value when present and `a`'s otherwise — and on manifests with
disjoint key sets it is commutative; it is associative outright. -/
theorem merge_union_lww (a b c : List (String × String)) (k : String)
    (hd : keysDisjoint a b = true) :
    mget (mergeManifest a b) k = oget (mget b k) (mget a k)
    ∧ mget (mergeManifest a b) k = mget (mergeManifest b a) k
    ∧ mget (mergeManifest (mergeManifest a b) c) k
        = mget (mergeManifest a (mergeManifest b c)) k := by
  refine ⟨mget_append a b k, ?_, ?_⟩
  · simp only [mergeManifest]
    rw [mget_append, mget_append]
    rcases keysDisjoint_spec a b hd k with h | h
    · rw [h, oget_none_right]
      rfl
    · rw [h, oget_none_right]
      rfl
  · simp only [mergeManifest, mget_append, oget_assoc]

theorem merge_union_lww_witness :
    mget (mergeManifest [("main.css", "main-1a.css")] [("main.js", "main-2b.js")]) "main.css"
      = oget (mget [("main.js", "main-2b.js")] "main.css")
          (mget [("main.css", "main-1a.css")] "main.css")
    ∧ mget (mergeManifest [("main.css", "main-1a.css")] [("main.js", "main-2b.js")]) "main.css"
      = mget (mergeManifest [("main.js", "main-2b.js")] [("main.css", "main-1a.css")]) "main.css"
    ∧ mget (mergeManifest (mergeManifest [("main.css", "main-1a.css")]
          [("main.js", "main-2b.js")]) [("logo.png", "logo-3c.png")]) "main.css"
      = mget (mergeManifest [("main.css", "main-1a.css")]
          (mergeManifest [("main.js", "main-2b.js")] [("logo.png", "logo-3c.png")])) "main.css" :=
  merge_union_lww [("main.css", "main-1a.css")] [("main.js", "main-2b.js")]
    [("logo.png", "logo-3c.png")] "main.css" (by decide)

/-- C3 (counterexample): literal-substring rewriting is not idempotent for
every manifest — with the manifest mapping `abcd.css → abcd-ef.css` and
`main.css → main-abcd.css`, the text `main.css` rewrites once to
`main-abcd.css`, but a second pass finds `abcd.css` inside the substituted
value and produces `main-abcd-ef.css`. -/
theorem rewrite_twice_ne_once :
    rewriteText [("abcd.css", "abcd-ef.css"), ("main.css", "main-abcd.css")]
        (rewriteText [("abcd.css", "abcd-ef.css"), ("main.css", "main-abcd.css")] "main.css")
      ≠ rewriteText [("abcd.css", "abcd-ef.css"), ("main.css", "main-abcd.css")] "main.css" := by
  decide

/-- C3 (amended): rewriting is idempotent whenever no manifest key occurs in
the once-rewritten text — in particular whenever rewriting never reintroduces
a key, which is the claim's own justification made into the needed premise. -/
theorem rewrite_idempotent_of_keys_absent (m : List (String × String)) (t : String)
    (h : ∀ kv ∈ m, occursIn kv.1.toList (rewriteText m t).toList = false) :
    rewriteText m (rewriteText m t) = rewriteText m t :=
  rewriteText_fix m (rewriteText m t) h

theorem rewrite_idempotent_of_keys_absent_witness :
    rewriteText [("main.css", "main-abcd1234.css")]
        (rewriteText [("main.css", "main-abcd1234.css")] "link href=css/main.css")
      = rewriteText [("main.css", "main-abcd1234.css")] "link href=css/main.css" :=
  rewrite_idempotent_of_keys_absent [("main.css", "main-abcd1234.css")]
    "link href=css/main.css" (by decide)

/-- C8 (counterexample): a referenced path that is not itself a manifest key
is still altered when a key occurs inside it — `assets/main.css` has no
manifest entry, yet the rewriter turns it into `assets/main-abcd1234.css`. -/
theorem nonkey_path_rewritten :
    mget [("main.css", "main-abcd1234.css")] "assets/main.css" = none
    ∧ occursIn ("assets/main.css").toList ("img src=assets/main.css").toList = true
    ∧ rewriteText [("main.css", "main-abcd1234.css")] "img src=assets/main.css"
        ≠ "img src=assets/main.css" := by
  refine ⟨rfl, by decide, by decide⟩

/-- C8 (amended): a text none of whose substrings equals any manifest key —
for example one whose only references are external CDN URLs or unrevisioned
static assets not containing a key — passes the rewriter byte-for-byte
unchanged, and the absent entry raises no error (the rewriter is total). -/
theorem rewriter_keyless_text_unchanged (m : List (String × String)) (t : String)
    (h : ∀ kv ∈ m, occursIn kv.1.toList t.toList = false) :
    rewriteText m t = t :=
  rewriteText_fix m t h

theorem rewriter_keyless_text_unchanged_witness :
    rewriteText [("main.css", "main-abcd1234.css")]
        "script src=https://cdn.example.com/lib.js"
      = "script src=https://cdn.example.com/lib.js" :=
  rewriter_keyless_text_unchanged [("main.css", "main-abcd1234.css")]
    "script src=https://cdn.example.com/lib.js" (by decide)

/-- C1 (counterexample): the production Sass stage with digest `abcd1234`
records the manifest entry `main.css → main-abcd1234.css` — the key is
relative to the stage's own base, a bare filename — so no entry for
`css/main.css` exists. The gulpfile itself relies on this: the `critical`
task (line 299) looks up `revManifest['main.css']` and prepends `css/`. -/
theorem prodSass_manifest_key_cex :
    (bundleSASS_model true (fun _ => "abcd1234") "src/sass/main.scss"
        "dist/css/main.css" "body").entries
      = [("main.css", "main-abcd1234.css")]
    ∧ mget (bundleSASS_model true (fun _ => "abcd1234") "src/sass/main.scss"
        "dist/css/main.css" "body").entries "css/main.css" = none :=
  ⟨rfl, rfl⟩

/-- C1 (amended): when the compiled CSS content hashes to `abcd1234`, the
production Sass stage writes `dist/css/main-abcd1234.css` under the
destination root, does not write `dist/css/main.css`, and records the
manifest entry `main.css → main-abcd1234.css` (no `css/main.css` key). -/
theorem prodSass_revisioned_output (hash : String → String) (X : String)
    (hh : hash X = "abcd1234") :
    "dist/css/main-abcd1234.css"
        ∈ (bundleSASS_model true hash "src/sass/main.scss" "dist/css/main.css" X).files
    ∧ "dist/css/main.css"
        ∉ (bundleSASS_model true hash "src/sass/main.scss" "dist/css/main.css" X).files
    ∧ mget (bundleSASS_model true hash "src/sass/main.scss" "dist/css/main.css" X).entries
        "main.css" = some "main-abcd1234.css"
    ∧ mget (bundleSASS_model true hash "src/sass/main.scss" "dist/css/main.css" X).entries
        "css/main.css" = none := by
  rw [show bundleSASS_model true hash "src/sass/main.scss" "dist/css/main.css" X
      = ⟨[joinSeg "dist/css" (revFileName (hash X) "main.css"),
          joinSeg "dist/css" (revFileName (hash X) "main.css" ++ ".map")],
         [("main.css", revFileName (hash X) "main.css")], some revManifestPath⟩ from rfl,
    hh]
  refine ⟨by decide, by decide, rfl, rfl⟩

theorem prodSass_revisioned_output_witness :
    "dist/css/main-abcd1234.css"
        ∈ (bundleSASS_model true (fun _ => "abcd1234") "src/sass/main.scss"
            "dist/css/main.css" "body").files
    ∧ "dist/css/main.css"
        ∉ (bundleSASS_model true (fun _ => "abcd1234") "src/sass/main.scss"
            "dist/css/main.css" "body").files
    ∧ mget (bundleSASS_model true (fun _ => "abcd1234") "src/sass/main.scss"
        "dist/css/main.css" "body").entries "main.css" = some "main-abcd1234.css"
    ∧ mget (bundleSASS_model true (fun _ => "abcd1234") "src/sass/main.scss"
        "dist/css/main.css" "body").entries "css/main.css" = none :=
  prodSass_revisioned_output (fun _ => "abcd1234") "body" rfl

/-- C5 (counterexample): during the revisioning stages the manifest is
persisted at the project root `rev-manifest.json`, which is not a path under
the destination root `dist/` — the claim's "persisted at the destination root
throughout" fails; only `move-rev-manifest` later creates
`dist/rev-manifest.json`. -/
theorem manifest_not_at_dest_root_cex :
    (bundleSASS_model true (fun _ => "abcd1234") "src/sass/main.scss"
        "dist/css/main.css" "body").manifestFile = some revManifestPath
    ∧ leadsWith (destDir ++ "/").toList revManifestPath.toList = false
    ∧ revManifestPath ≠ joinSeg destDir "rev-manifest.json" := by
  refine ⟨rfl, by decide, by decide⟩

/-- C5 (amended): the manifest is a single JSON file `rev-manifest.json`;
each revisioning stage persists it as its last write, at the project root
(not under the destination root); after the asset stages, `copy-rev-manifest`
copies it to `dist/rev-manifest.json` and `delete-rev-manifest` removes the
root copy, both as dependencies of `rev-rewrite`, and the rewriter reads
`dist/rev-manifest.json` as its first input. -/
theorem manifest_lifecycle (hash : String → String) (X b : String)
    (imgs : List (String × String)) (hne : imgs ≠ []) :
    (bundleSASS_model true hash "src/sass/main.scss" "dist/css/main.css" X).writeSeq.getLast?
      = some revManifestPath
    ∧ (bundleJS_model true hash "dist/js/main.js" b).writeSeq.getLast? = some revManifestPath
    ∧ (images_model true hash imgs).writeSeq.getLast? = some revManifestPath
    ∧ leadsWith (destDir ++ "/").toList revManifestPath.toList = false
    ∧ copyRevManifestSrc = revManifestPath
    ∧ copyRevManifestWrites = [revRewriteManifestSrc]
    ∧ deleteRevManifestTarget = revManifestPath
    ∧ revRewriteReads.head? = some revRewriteManifestSrc
    ∧ stageBefore (buildPhases true) "sass" "copy-rev-manifest" = true
    ∧ stageBefore (buildPhases true) "main" "copy-rev-manifest" = true
    ∧ stageBefore (buildPhases true) "sw" "copy-rev-manifest" = true
    ∧ stageBefore (buildPhases true) "images" "copy-rev-manifest" = true
    ∧ stageBefore (buildPhases true) "copy-rev-manifest" "delete-rev-manifest" = true
    ∧ stageBefore (buildPhases true) "delete-rev-manifest" "rev-rewrite" = true := by
  refine ⟨rfl, rfl, ?_, by decide, rfl, rfl, rfl, rfl,
    by decide, by decide, by decide, by decide, by decide, by decide⟩
  cases imgs with
  | nil => exact absurd rfl hne
  | cons g gs =>
    show (((g :: gs).map (fun x => joinSeg imagesDest (revRelName hash x.1 x.2)))
        ++ [revManifestPath]).getLast? = some revManifestPath
    exact List.getLast?_concat _

theorem manifest_lifecycle_witness :
    (bundleSASS_model true (fun _ => "ab") "src/sass/main.scss"
        "dist/css/main.css" "x").writeSeq.getLast? = some revManifestPath
    ∧ (bundleJS_model true (fun _ => "ab") "dist/js/main.js" "y").writeSeq.getLast?
        = some revManifestPath
    ∧ (images_model true (fun _ => "ab") [("logo.png", "img")]).writeSeq.getLast?
        = some revManifestPath
    ∧ leadsWith (destDir ++ "/").toList revManifestPath.toList = false
    ∧ copyRevManifestSrc = revManifestPath
    ∧ copyRevManifestWrites = [revRewriteManifestSrc]
    ∧ deleteRevManifestTarget = revManifestPath
    ∧ revRewriteReads.head? = some revRewriteManifestSrc
    ∧ stageBefore (buildPhases true) "sass" "copy-rev-manifest" = true
    ∧ stageBefore (buildPhases true) "main" "copy-rev-manifest" = true
    ∧ stageBefore (buildPhases true) "sw" "copy-rev-manifest" = true
    ∧ stageBefore (buildPhases true) "images" "copy-rev-manifest" = true
    ∧ stageBefore (buildPhases true) "copy-rev-manifest" "delete-rev-manifest" = true
    ∧ stageBefore (buildPhases true) "delete-rev-manifest" "rev-rewrite" = true :=
  manifest_lifecycle (fun _ => "ab") "x" "y" [("logo.png", "img")] (by decide)

/-- C2: every file revisioned by a production build exists in the destination
tree under its revisioned path and not under its original path — the Sass
output, both script bundles, and (provided no other image's revisioned name
coincides with its original name) every optimised image. -/
theorem revisioned_exactly_one (hash : String → String) (X bMain bSw : String)
    (imgs : List (String × String)) (f : String × String) (hf : f ∈ imgs)
    (hfresh : ∀ g ∈ imgs, revRelName hash g.1 g.2 ≠ f.1) :
    (joinSeg "dist/css" (revFileName (hash X) "main.css")
        ∈ (bundleSASS_model true hash "src/sass/main.scss" "dist/css/main.css" X).files
      ∧ "dist/css/main.css"
        ∉ (bundleSASS_model true hash "src/sass/main.scss" "dist/css/main.css" X).files)
    ∧ (joinSeg "dist/js" (revFileName (hash bMain) "main.js")
        ∈ (bundleJS_model true hash "dist/js/main.js" bMain).files
      ∧ "dist/js/main.js" ∉ (bundleJS_model true hash "dist/js/main.js" bMain).files)
    ∧ (joinSeg "dist" (revFileName (hash bSw) "sw.js")
        ∈ (bundleJS_model true hash "dist/sw.js" bSw).files
      ∧ "dist/sw.js" ∉ (bundleJS_model true hash "dist/sw.js" bSw).files)
    ∧ (joinSeg imagesDest (revRelName hash f.1 f.2) ∈ (images_model true hash imgs).files
      ∧ joinSeg imagesDest f.1 ∉ (images_model true hash imgs).files) := by
  refine ⟨⟨List.mem_cons_self _ _, ?_⟩, ⟨List.mem_cons_self _ _, ?_⟩,
    ⟨List.mem_cons_self _ _, ?_⟩, ⟨List.mem_map_of_mem _ hf, ?_⟩⟩
  · exact not_mem_rev_pair "dist/css" "main.css" (revFileName (hash X) "main.css")
      (ne_main_css_rev (hash X)) (ne_main_css_rev_map (hash X))
  · exact not_mem_rev_pair "dist/js" "main.js" (revFileName (hash bMain) "main.js")
      (ne_main_js_rev (hash bMain)) (ne_main_js_rev_map (hash bMain))
  · exact not_mem_rev_pair "dist" "sw.js" (revFileName (hash bSw) "sw.js")
      (ne_sw_js_rev (hash bSw)) (ne_sw_js_rev_map (hash bSw))
  · intro hm
    have hm2 : joinSeg imagesDest f.1
        ∈ imgs.map (fun g => joinSeg imagesDest (revRelName hash g.1 g.2)) := hm
    rcases List.mem_map.mp hm2 with ⟨g, hg, he⟩
    exact hfresh g hg (joinSeg_inj_right imagesDest (revRelName hash g.1 g.2) f.1 he)

theorem revisioned_exactly_one_witness :
    ("dist/css/main-ab.css"
        ∈ (bundleSASS_model true (fun _ => "ab") "src/sass/main.scss"
            "dist/css/main.css" "x").files
      ∧ "dist/css/main.css"
        ∉ (bundleSASS_model true (fun _ => "ab") "src/sass/main.scss"
            "dist/css/main.css" "x").files)
    ∧ ("dist/js/main-ab.js" ∈ (bundleJS_model true (fun _ => "ab") "dist/js/main.js" "y").files
      ∧ "dist/js/main.js" ∉ (bundleJS_model true (fun _ => "ab") "dist/js/main.js" "y").files)
    ∧ ("dist/sw-ab.js" ∈ (bundleJS_model true (fun _ => "ab") "dist/sw.js" "z").files
      ∧ "dist/sw.js" ∉ (bundleJS_model true (fun _ => "ab") "dist/sw.js" "z").files)
    ∧ ("dist/images/logo-ab.png"
        ∈ (images_model true (fun _ => "ab") [("logo.png", "img")]).files
      ∧ "dist/images/logo.png"
        ∉ (images_model true (fun _ => "ab") [("logo.png", "img")]).files) :=
  revisioned_exactly_one (fun _ => "ab") "x" "y" "z" [("logo.png", "img")]
    ("logo.png", "img") (List.mem_cons_self _ _) (by decide)

end GulpBoilerplate
